import Mathlib

/-!
Verification of the resilient batch execution engine in
src/gemini_run_script.py.

The engine has three parts:
* generate_content_with_retry  (lines 21-58): a bounded
  exponential-backoff retry loop around one remote call;
* get_bounding_boxes           (lines 77-147): one work item: open the
  image, invoke the retry loop, parse the response; every exception is
  caught at this boundary and converted to a None result;
* process_multiple_images      (lines 150-178): the batch driver that
  iterates the items and accumulates the per-item results.

The remote service, the filesystem and JSON parsing are external
collaborators; they are modelled as explicit per-item environment data
(whether the file exists, whether the image opens, what each call
attempt returns, and how the response body parses).  Everything the
engine itself does - classification, retry control flow, delays, the
shape of the accumulated report - is translated directly from the
source.
-/

/-- Source constant MAX_RETRIES (line 12). -/
def MAX_RETRIES : Nat := 5

/-- Source constant INITIAL_DELAY (line 13). -/
def INITIAL_DELAY : Nat := 2

/-- The Python substring test `needle in haystack` used by the error
classifier: some index position of the haystack starts with the needle. -/
def containsSub (haystack needle : String) : Bool :=
  (List.range (haystack.data.length + 1)).any
    (fun i => needle.data.isPrefixOf (haystack.data.drop i))

def sRESOURCE_EXHAUSTED : String := "RESOURCE_EXHAUSTED"

def s429 : String := "429"

def sInternalServerError : String := "InternalServerError"

def s500 : String := "500"

def sServiceUnavailable : String := "ServiceUnavailable"

def s503 : String := "503"

/-- Lines 34-41: `is_retriable_error`, the classification of the caught
exception by substring tests on `str(e)`. -/
def is_retriable_error (msg : String) : Bool :=
  containsSub msg sRESOURCE_EXHAUSTED ||
  containsSub msg s429 ||
  containsSub msg sInternalServerError ||
  containsSub msg s500 ||
  containsSub msg sServiceUnavailable ||
  containsSub msg s503

/-- What `json.loads(response.text.strip())` does with the remote
response body (line 136): it raises, yields JSON null, or yields a list
of detections (each detection left abstract as a tag). -/
inductive ParseResult where
  | raises
  | null
  | list (detections : List Nat)
deriving DecidableEq

/-- The result of one attempt of the remote call
`client.models.generate_content` (lines 24-28): either a response
(identified by how its body parses) or an exception carrying `str(e)`. -/
inductive CallResult where
  | ok (resp : ParseResult)
  | err (msg : String)
deriving DecidableEq

/-- How `generate_content_with_retry` terminates: `success` is the
`return response` on line 29; `exhausted` is the `raise e` on line 56
reached with a retriable error and no attempts left (after the line 51
log); `fatal` is the same `raise e` reached with a non-retriable error
(after the line 54 log) - the two raise sites are distinguishable by
classification and log line; `returnedNone` is the `return None` on
line 58, reachable only when the loop body never runs. -/
inductive RetryOutcome where
  | success (resp : ParseResult)
  | exhausted (msg : String)
  | fatal (msg : String)
  | returnedNone
deriving DecidableEq

/-- Observable result of one invocation of the retry loop: how it
terminated, how many call attempts were made, and the list of backoff
delays slept (in order). -/
structure RetryResult where
  outcome : RetryOutcome
  attempts : Nat
  delays : List Nat
deriving DecidableEq

/-- The loop body of `generate_content_with_retry` (lines 22-58).
`call n` is the result of the attempt with 0-indexed number `n`;
`fuel` is the number of loop iterations left (`max_retries - attempt`
at the top-level call), so exhausting it is falling off
`for attempt in range(max_retries)` and returning None.  A retriable
error with `attempt < max_retries - 1` sleeps
`initial_delay * (2 ** attempt)` (line 44) and retries; otherwise the
exception is re-raised (line 56), classified by `is_retriable_error`. -/
def gcwrAux (call : Nat → CallResult) (max_retries initial_delay : Nat) :
    Nat → Nat → RetryResult
  | _, 0 => ⟨RetryOutcome.returnedNone, 0, []⟩
  | attempt, fuel + 1 =>
    match call attempt with
    | CallResult.ok r => ⟨RetryOutcome.success r, 1, []⟩
    | CallResult.err msg =>
      if is_retriable_error msg = true ∧ attempt < max_retries - 1 then
        ⟨(gcwrAux call max_retries initial_delay (attempt + 1) fuel).outcome,
         (gcwrAux call max_retries initial_delay (attempt + 1) fuel).attempts + 1,
         initial_delay * 2 ^ attempt ::
           (gcwrAux call max_retries initial_delay (attempt + 1) fuel).delays⟩
      else if is_retriable_error msg = true then
        ⟨RetryOutcome.exhausted msg, 1, []⟩
      else
        ⟨RetryOutcome.fatal msg, 1, []⟩

/-- Lines 21-58: `generate_content_with_retry(client, img, prompt,
config, max_retries, initial_delay)`.  The client/img/prompt/config
payload is abstracted into `call`, the per-attempt behavior of the
remote service for this item. -/
def generate_content_with_retry (call : Nat → CallResult)
    (max_retries initial_delay : Nat) : RetryResult :=
  gcwrAux call max_retries initial_delay 0 max_retries

def sepChar : Char := '/'

def dotChar : Char := '.'

/-- Index of the last occurrence of a character, as Python str.rfind. -/
def lastIdxOf (c : Char) : List Char → Option Nat
  | [] => none
  | x :: xs =>
    match lastIdxOf c xs with
    | some i => some (i + 1)
    | none => if x = c then some 0 else none

/-- Python os.path.basename: the part after the last path separator. -/
def basenameChars (s : List Char) : List Char :=
  (s.reverse.takeWhile (fun a => a ≠ sepChar)).reverse

/-- Root component of `os.path.splitext` on a bare file name: split at
the last dot only if some character strictly before it is not a dot
(so names of only leading dots keep their dots). -/
def splitextRootChars (b : List Char) : List Char :=
  match lastIdxOf dotChar b with
  | none => b
  | some i => if (b.take i).any (fun a => a ≠ dotChar) then b.take i else b

/-- Line 86: `os.path.splitext(os.path.basename(image_file_path))[0]`. -/
def file_stem (p : String) : String :=
  String.mk (splitextRootChars (basenameChars p.data))

/-- The environment of one work item: its path, whether
`os.path.exists` holds, whether `Image.open` succeeds, and the remote
service's response on each attempt. -/
structure ItemSpec where
  path : String
  fileExists : Bool
  imageOpens : Bool
  call : Nat → CallResult

/-- The `formatted_result` dict built on lines 138-141:
`file_name` plus the parsed detections (`none` models JSON null). -/
structure FileData where
  file_name : String
  detections : Option (List Nat)
deriving DecidableEq

/-- Lines 77-147: `get_bounding_boxes(image_file_path)`.  Missing file
returns None (line 83); a failing `Image.open`, a raise out of the
retry loop, the AttributeError on a None response's `.text`, and a
raising `json.loads` are all caught by the `except Exception` block on
line 145, which returns None: every per-item error is converted to a
None result at this boundary.  The retry loop is invoked with the
source defaults (line 129). -/
def get_bounding_boxes (it : ItemSpec) : Option FileData :=
  if it.fileExists = false then none
  else if it.imageOpens = false then none
  else
    match (generate_content_with_retry it.call MAX_RETRIES INITIAL_DELAY).outcome with
    | RetryOutcome.success ParseResult.raises => none
    | RetryOutcome.success ParseResult.null => some ⟨file_stem it.path, none⟩
    | RetryOutcome.success (ParseResult.list ds) =>
        some ⟨file_stem it.path, some ds⟩
    | RetryOutcome.exhausted _ => none
    | RetryOutcome.fatal _ => none
    | RetryOutcome.returnedNone => none

/-- Lines 150-164: the loop of `process_multiple_images`.  The
accumulated `all_results` list (the report later serialized to the
output file) receives `file_data` only when it is truthy and
`file_data.get("detections") is not None` (line 160); otherwise the
item is skipped (line 164).  The returned list is `all_results` after
the last item. -/
def process_multiple_images : List ItemSpec → List FileData
  | [] => []
  | it :: rest =>
    match get_bounding_boxes it with
    | some fd =>
      if fd.detections.isSome = true then fd :: process_multiple_images rest
      else process_multiple_images rest
    | none => process_multiple_images rest

/-- The per-item success data: what `process_multiple_images` appends
for an item, if anything.  Used to state that the report is exactly the
successful items' data in input order. -/
def itemSuccess (it : ItemSpec) : Option FileData :=
  match get_bounding_boxes it with
  | some fd => if fd.detections.isSome = true then some fd else none
  | none => none

/-- Model of `process_multiple_images` under an external cancellation signal
(e.g. KeyboardInterrupt) delivered at the top of the loop iteration
with index `cancelAt`.  The source installs no cancellation handling:
`process_multiple_images` has no try around its loop and the
`except Exception` block in `get_bounding_boxes` does not catch
BaseException-derived signals, so the signal unwinds the loop, the
local `all_results` accumulated so far is discarded, and no report is
returned (`Except.error`).  The first component records the paths of
the items whose iterations ran before the signal; a `cancelAt` of at
least the list length means the signal never fires and the second
component is the ordinary result. -/
def process_multiple_images_cancelled :
    List ItemSpec → Nat → List String × Except Unit (List FileData)
  | _, 0 => ([], Except.error ())
  | [], _ + 1 => ([], Except.ok [])
  | it :: rest, n + 1 =>
    let tail := process_multiple_images_cancelled rest n
    (it.path :: tail.1,
      match tail.2 with
      | Except.error () => Except.error ()
      | Except.ok r =>
        match get_bounding_boxes it with
        | some fd =>
          if fd.detections.isSome = true then Except.ok (fd :: r)
          else Except.ok r
        | none => Except.ok r)

/-- A needle occurring somewhere inside a haystack, stated by explicit
decomposition (the meaning of the Python `in` test). -/
def occursIn (needle haystack : String) : Prop :=
  ∃ p q : List Char, haystack.data = p ++ needle.data ++ q

/- Concrete demonstration data. -/

def sFatalMsg : String := "PERMISSION_DENIED: bad api key"

def sRetriableMsg : String := "ServiceUnavailable: quota hit"

def sPathMsg : String := "cannot read file /tmp/429/img.jpg"

/-- A provider that always succeeds with the given detections. -/
def okCall (ds : List Nat) : Nat → CallResult :=
  fun _ => CallResult.ok (ParseResult.list ds)

/-- A provider that always fails with a non-retriable error. -/
def fatalCall : Nat → CallResult :=
  fun _ => CallResult.err sFatalMsg

/-- A provider that always fails with a retriable error. -/
def retriableCall : Nat → CallResult :=
  fun _ => CallResult.err sRetriableMsg

/-- A provider whose error text mentions 429 only inside a file path. -/
def pathCall : Nat → CallResult :=
  fun _ => CallResult.err sPathMsg

/-- A provider that fails retriably on the first two attempts, then
succeeds. -/
def mixedCall : Nat → CallResult :=
  fun n => if n < 2 then CallResult.err sRetriableMsg
           else CallResult.ok (ParseResult.list [7])

def itemA : ItemSpec := ⟨"test/A.jpg", true, true, okCall [10]⟩

def itemB : ItemSpec := ⟨"test/B.jpg", true, true, fatalCall⟩

def itemC : ItemSpec := ⟨"test/C.jpg", true, true, okCall [20, 21]⟩

def itemD : ItemSpec := ⟨"test/D.jpg", true, true, okCall [30]⟩

def sNameA : String := "A"

def sNameC : String := "C"

example : is_retriable_error sRetriableMsg = true := by decide

example : is_retriable_error sFatalMsg = false := by decide

example : is_retriable_error sPathMsg = true := by decide

example : file_stem itemA.path = sNameA := by decide

example : process_multiple_images [itemA, itemB, itemC] =
    [⟨sNameA, some [10]⟩, ⟨sNameC, some [20, 21]⟩] := by decide

example : (generate_content_with_retry retriableCall 5 2).delays = [2, 4, 8, 16] := by decide

example : generate_content_with_retry mixedCall 5 2 =
    ⟨RetryOutcome.success (ParseResult.list [7]), 3, [2, 4]⟩ := by decide

example : (process_multiple_images_cancelled [itemA, itemB, itemC, itemD] 1).2 =
    Except.error () := rfl

/- Step lemmas for the retry loop, one per branch of the loop body. -/

/-- Attempt `a` succeeds: the loop returns the response at once. -/
theorem gcwrAux_step_ok (call : Nat → CallResult) (mr init a fuel : Nat)
    (r : ParseResult) (h : call a = CallResult.ok r) :
    gcwrAux call mr init a (fuel + 1) = ⟨RetryOutcome.success r, 1, []⟩ := by
  simp only [gcwrAux, h]

/-- Attempt `a` fails retriably with attempts remaining: sleep
`init * 2 ^ a` and continue with the next attempt. -/
theorem gcwrAux_step_retry (call : Nat → CallResult) (mr init a fuel : Nat)
    (msg : String) (h : call a = CallResult.err msg)
    (hr : is_retriable_error msg = true) (ha : a < mr - 1) :
    gcwrAux call mr init a (fuel + 1) =
      ⟨(gcwrAux call mr init (a + 1) fuel).outcome,
       (gcwrAux call mr init (a + 1) fuel).attempts + 1,
       init * 2 ^ a :: (gcwrAux call mr init (a + 1) fuel).delays⟩ := by
  simp only [gcwrAux, h]
  rw [if_pos ⟨hr, ha⟩]

/-- Attempt `a` fails retriably with no attempts remaining: the
exception is re-raised as an exhausted-retries failure. -/
theorem gcwrAux_step_exhausted (call : Nat → CallResult) (mr init a fuel : Nat)
    (msg : String) (h : call a = CallResult.err msg)
    (hr : is_retriable_error msg = true) (ha : ¬ a < mr - 1) :
    gcwrAux call mr init a (fuel + 1) = ⟨RetryOutcome.exhausted msg, 1, []⟩ := by
  simp only [gcwrAux, h]
  rw [if_neg (fun hand => ha hand.2), if_pos hr]

/-- Attempt `a` fails non-retriably: the exception is re-raised at once
as a fatal failure, with no sleep. -/
theorem gcwrAux_step_fatal (call : Nat → CallResult) (mr init a fuel : Nat)
    (msg : String) (h : call a = CallResult.err msg)
    (hr : is_retriable_error msg = false) :
    gcwrAux call mr init a (fuel + 1) = ⟨RetryOutcome.fatal msg, 1, []⟩ := by
  simp only [gcwrAux, h]
  rw [if_neg (by simp [hr]), if_neg (by simp [hr])]

/-- Unrolling `j` consecutive retriable failures: the loop starting at
attempt `a` performs the `j` backoff sleeps for attempts `a .. a+j-1`
and then behaves as the loop starting at attempt `a + j`. -/
theorem gcwrAux_shift (call : Nat → CallResult) (m : Nat → String)
    (mr init : Nat) :
    ∀ j a fuel, j < fuel → a + fuel = mr →
      (∀ i, i < j → call (a + i) = CallResult.err (m (a + i)) ∧
        is_retriable_error (m (a + i)) = true) →
      gcwrAux call mr init a fuel =
        ⟨(gcwrAux call mr init (a + j) (fuel - j)).outcome,
         j + (gcwrAux call mr init (a + j) (fuel - j)).attempts,
         (List.range' a j).map (fun i => init * 2 ^ i) ++
           (gcwrAux call mr init (a + j) (fuel - j)).delays⟩ := by
  intro j
  induction j with
  | zero =>
    intro a fuel _ _ _
    simp
  | succ jp ih =>
    intro a fuel hj hsum hpre
    obtain ⟨f, rfl⟩ : ∃ f, fuel = f + 1 := ⟨fuel - 1, by omega⟩
    have hca := (hpre 0 (by omega)).1
    have hra := (hpre 0 (by omega)).2
    rw [Nat.add_zero] at hca hra
    have halt : a < mr - 1 := by omega
    rw [gcwrAux_step_retry call mr init a f (m a) hca hra halt]
    have hpre2 : ∀ i, i < jp → call (a + 1 + i) = CallResult.err (m (a + 1 + i)) ∧
        is_retriable_error (m (a + 1 + i)) = true := by
      intro i hi
      have e : a + 1 + i = a + (i + 1) := by omega
      rw [e]
      exact hpre (i + 1) (by omega)
    rw [ih (a + 1) f (by omega) (by omega) hpre2]
    have e1 : a + 1 + jp = a + (jp + 1) := by omega
    have e2 : f - jp = f + 1 - (jp + 1) := by omega
    rw [e1, e2, List.range'_succ]
    simp only [List.map_cons, List.cons_append]
    congr 1
    omega

/-- A provider that fails with a retriable error on every attempt: the
loop makes exactly `max_retries` attempts, sleeps the exponential
backoff before every retry, and re-raises the last error as an
exhausted-retries failure. -/
theorem gcwr_all_retriable (call : Nat → CallResult) (m : Nat → String)
    (mr init : Nat) (hmr : 1 ≤ mr)
    (hc : ∀ n, call n = CallResult.err (m n))
    (hr : ∀ n, is_retriable_error (m n) = true) :
    generate_content_with_retry call mr init =
      ⟨RetryOutcome.exhausted (m (mr - 1)), mr,
       (List.range (mr - 1)).map (fun i => init * 2 ^ i)⟩ := by
  unfold generate_content_with_retry
  have hshift := gcwrAux_shift call m mr init (mr - 1) 0 mr (by omega) (by omega)
    (fun i _ => ⟨hc (0 + i), hr (0 + i)⟩)
  have e0 : 0 + (mr - 1) = mr - 1 := by omega
  have e1 : mr - (mr - 1) = 1 := by omega
  rw [e0, e1] at hshift
  have hone : gcwrAux call mr init (mr - 1) 1 =
      ⟨RetryOutcome.exhausted (m (mr - 1)), 1, []⟩ :=
    gcwrAux_step_exhausted call mr init (mr - 1) 0 (m (mr - 1))
      (hc (mr - 1)) (hr (mr - 1)) (by omega)
  rw [hone] at hshift
  rw [hshift]
  have e2 : mr - 1 + 1 = mr := by omega
  rw [List.range_eq_range', e2, List.append_nil]

/-- A provider that fails retriably on exactly the first `k` attempts
and then succeeds, with `k < max_retries`: the loop returns the
response after `k + 1` attempts, having slept exactly the `k` delays
`init * 2 ^ i` for `i = 0 .. k-1`, in that order. -/
theorem gcwr_k_then_ok (call : Nat → CallResult) (m : Nat → String)
    (r : ParseResult) (mr init k : Nat) (hk : k < mr)
    (hfail : ∀ i, i < k → call i = CallResult.err (m i) ∧
      is_retriable_error (m i) = true)
    (hok : call k = CallResult.ok r) :
    generate_content_with_retry call mr init =
      ⟨RetryOutcome.success r, k + 1,
       (List.range k).map (fun i => init * 2 ^ i)⟩ := by
  unfold generate_content_with_retry
  have hshift := gcwrAux_shift call m mr init k 0 mr hk (by omega)
    (fun i hi => by
      have e : 0 + i = i := by omega
      rw [e]
      exact hfail i hi)
  have e0 : 0 + k = k := by omega
  rw [e0] at hshift
  obtain ⟨f, hf⟩ : ∃ f, mr - k = f + 1 := ⟨mr - k - 1, by omega⟩
  rw [hf] at hshift
  rw [gcwrAux_step_ok call mr init k f r hok] at hshift
  rw [hshift, List.range_eq_range', List.append_nil]

/-- A provider that fails retriably on exactly the first `j` attempts
and then fails non-retriably on attempt `j`, with `j < max_retries`:
the loop re-raises that error as a fatal failure immediately after
attempt `j + 1` overall attempts, with no sleep after the fatal
attempt. -/
theorem gcwr_k_then_fatal (call : Nat → CallResult) (m : Nat → String)
    (mr init j : Nat) (hj : j < mr)
    (hfail : ∀ i, i < j → call i = CallResult.err (m i) ∧
      is_retriable_error (m i) = true)
    (hfatal : call j = CallResult.err (m j))
    (hnr : is_retriable_error (m j) = false) :
    generate_content_with_retry call mr init =
      ⟨RetryOutcome.fatal (m j), j + 1,
       (List.range j).map (fun i => init * 2 ^ i)⟩ := by
  unfold generate_content_with_retry
  have hshift := gcwrAux_shift call m mr init j 0 mr hj (by omega)
    (fun i hi => by
      have e : 0 + i = i := by omega
      rw [e]
      exact hfail i hi)
  have e0 : 0 + j = j := by omega
  rw [e0] at hshift
  obtain ⟨f, hf⟩ : ∃ f, mr - j = f + 1 := ⟨mr - j - 1, by omega⟩
  rw [hf] at hshift
  rw [gcwrAux_step_fatal call mr init j f (m j) hfatal hnr] at hshift
  rw [hshift, List.range_eq_range', List.append_nil]

/-- Any run of the loop body makes at least one call attempt. -/
theorem gcwrAux_attempts_pos (call : Nat → CallResult) (mr init : Nat) :
    ∀ fuel a, 1 ≤ fuel → 1 ≤ (gcwrAux call mr init a fuel).attempts := by
  intro fuel a hfuel
  obtain ⟨f, rfl⟩ : ∃ f, fuel = f + 1 := ⟨fuel - 1, by omega⟩
  cases hca : call a with
  | ok r => rw [gcwrAux_step_ok call mr init a f r hca]
  | err msg =>
    cases hr : is_retriable_error msg with
    | false => rw [gcwrAux_step_fatal call mr init a f msg hca hr]
    | true =>
      by_cases ha : a < mr - 1
      · rw [gcwrAux_step_retry call mr init a f msg hca hr ha]
        simp only []
        omega
      · rw [gcwrAux_step_exhausted call mr init a f msg hca hr ha]

/-- The total backoff slept by the loop from attempt `a` is below the
geometric tail: sum of delays plus `init * 2 ^ a` is at most
`init * 2 ^ (a + fuel)`. -/
theorem gcwrAux_delays_sum_le (call : Nat → CallResult) (mr init : Nat) :
    ∀ fuel a, (gcwrAux call mr init a fuel).delays.sum + init * 2 ^ a ≤
      init * 2 ^ (a + fuel) := by
  intro fuel
  induction fuel with
  | zero =>
    intro a
    simp [gcwrAux]
  | succ f ih =>
    intro a
    have hmono : init * 2 ^ a ≤ init * 2 ^ (a + (f + 1)) :=
      Nat.mul_le_mul_left init
        (Nat.pow_le_pow_right (by norm_num) (by omega))
    cases hca : call a with
    | ok r =>
      rw [gcwrAux_step_ok call mr init a f r hca]
      simpa using hmono
    | err msg =>
      cases hr : is_retriable_error msg with
      | false =>
        rw [gcwrAux_step_fatal call mr init a f msg hca hr]
        simpa using hmono
      | true =>
        by_cases ha : a < mr - 1
        · rw [gcwrAux_step_retry call mr init a f msg hca hr ha]
          simp only [List.sum_cons]
          have h1 := ih (a + 1)
          have e1 : init * 2 ^ (a + 1) = init * 2 ^ a * 2 := by
            rw [pow_succ, Nat.mul_assoc]
          have e2 : a + 1 + f = a + (f + 1) := by omega
          rw [e1, e2] at h1
          omega
        · rw [gcwrAux_step_exhausted call mr init a f msg hca hr ha]
          simpa using hmono

/-- The total backoff slept by one invocation of
`generate_content_with_retry` is at most `init * (2 ^ max_retries - 1)`,
the geometric-series bound. -/
theorem gcwr_delays_sum_le (call : Nat → CallResult) (mr init : Nat) :
    (generate_content_with_retry call mr init).delays.sum ≤
      init * (2 ^ mr - 1) := by
  unfold generate_content_with_retry
  have h := gcwrAux_delays_sum_le call mr init mr 0
  have e0 : 0 + mr = mr := by omega
  rw [e0] at h
  have h2 : 0 < 2 ^ mr := Nat.pos_pow_of_pos mr (by norm_num)
  have e : init * (2 ^ mr - 1) + init = init * 2 ^ mr := by
    rw [Nat.mul_sub, Nat.mul_one]
    omega
  simp only [pow_zero, Nat.mul_one] at h
  omega

/-- Closed form of the geometric delay sum. -/
theorem delay_geom_sum (init : Nat) :
    ∀ n, ((List.range n).map (fun i => init * 2 ^ i)).sum =
      init * (2 ^ n - 1) := by
  intro n
  induction n with
  | zero => simp
  | succ k ih =>
    rw [List.range_succ, List.map_append, List.sum_append, ih]
    have h2 : 1 ≤ 2 ^ k := Nat.one_le_two_pow
    have e1 : init * (2 ^ k - 1) + init = init * 2 ^ k := by
      have hle : init * 1 ≤ init * 2 ^ k := Nat.mul_le_mul_left init h2
      rw [Nat.mul_one] at hle
      rw [Nat.mul_sub, Nat.mul_one]
      omega
    have e2 : init * (2 ^ (k + 1) - 1) + init = init * 2 ^ (k + 1) := by
      have h3 : 1 ≤ 2 ^ (k + 1) := Nat.one_le_two_pow
      have hle : init * 1 ≤ init * 2 ^ (k + 1) := Nat.mul_le_mul_left init h3
      rw [Nat.mul_one] at hle
      rw [Nat.mul_sub, Nat.mul_one]
      omega
    have e3 : init * 2 ^ (k + 1) = init * 2 ^ k * 2 := by
      rw [pow_succ, Nat.mul_assoc]
    simp only [List.map_cons, List.map_nil, List.sum_cons, List.sum_nil]
    omega

/-- The accumulated report is exactly the successful items' data, in
input order: the batch loop is a filterMap over the item sequence. -/
theorem pmi_eq_filterMap :
    ∀ items : List ItemSpec,
      process_multiple_images items = items.filterMap itemSuccess := by
  intro items
  induction items with
  | nil => rfl
  | cons it rest ih =>
    cases hg : get_bounding_boxes it with
    | none =>
      simp [process_multiple_images, itemSuccess, hg, ih]
    | some fd =>
      cases hd : fd.detections.isSome with
      | false => simp [process_multiple_images, itemSuccess, hg, hd, ih]
      | true => simp [process_multiple_images, itemSuccess, hg, hd, ih]

/-- The executable substring test agrees with the decomposition
characterization of substring occurrence. -/
theorem containsSub_iff (hstack nd : String) :
    containsSub hstack nd = true ↔ occursIn nd hstack := by
  unfold containsSub occursIn
  rw [List.any_eq_true]
  constructor
  · rintro ⟨i, hmem, hp⟩
    rw [List.isPrefixOf_iff_prefix] at hp
    obtain ⟨t, ht⟩ := hp
    refine ⟨hstack.data.take i, t, ?_⟩
    rw [List.append_assoc, ht, List.take_append_drop]
  · rintro ⟨p, q, hpq⟩
    refine ⟨p.length, ?_, ?_⟩
    · rw [List.mem_range]
      have hlen := congrArg List.length hpq
      rw [List.length_append, List.length_append] at hlen
      omega
    · rw [List.isPrefixOf_iff_prefix, hpq, List.append_assoc, List.drop_left]
      exact ⟨q, rfl⟩

/-- The demonstration retriable message is classified retriable. -/
theorem retriable_sRetriableMsg : is_retriable_error sRetriableMsg = true := by decide

/-- The demonstration fatal message is classified non-retriable. -/
theorem nonretriable_sFatalMsg : is_retriable_error sFatalMsg = false := by decide

/-- C1, corrected.  The finalized report contains one entry per
*successfully* processed item: its length is the number of items whose
processing produced valid data, and is at most the number of submitted
items.  An item whose processing fails is skipped (line 164), not
appended with a failure outcome. -/
theorem C1_theorem (items : List ItemSpec) :
    (process_multiple_images items).length =
      items.countP (fun it => (itemSuccess it).isSome) ∧
    (process_multiple_images items).length ≤ items.length := by
  rw [pmi_eq_filterMap]
  exact ⟨List.length_filterMap_eq_countP itemSuccess items,
    List.length_filterMap_le itemSuccess items⟩

/-- C1, counterexample to the claim as stated: for the three-item batch
where the second item fails fatally, the report has 2 entries, not
`len(items) = 3` - the failing item is silently dropped from the
report (only logged). -/
theorem C1_counterexample :
    ¬ (process_multiple_images [itemA, itemB, itemC]).length =
      ([itemA, itemB, itemC] : List ItemSpec).length := by decide

/-- C2, confirmed.  If an item's retry loop terminates by raising
(exhausted retries or fatal error), the exception is caught at the item
boundary - `get_bounding_boxes` returns None - and the batch over the
remaining items is exactly the batch without that item: processing
always proceeds to the next item and completes. -/
theorem C2_theorem (it : ItemSpec) (rest : List ItemSpec) (msg : String)
    (h : (generate_content_with_retry it.call MAX_RETRIES INITIAL_DELAY).outcome =
           RetryOutcome.exhausted msg ∨
         (generate_content_with_retry it.call MAX_RETRIES INITIAL_DELAY).outcome =
           RetryOutcome.fatal msg) :
    get_bounding_boxes it = none ∧
    process_multiple_images (it :: rest) = process_multiple_images rest := by
  have hg : get_bounding_boxes it = none := by
    unfold get_bounding_boxes
    rcases h with h | h <;>
      cases hfe : it.fileExists <;>
        cases hio : it.imageOpens <;>
          simp [hfe, hio, h]
  refine ⟨hg, ?_⟩
  simp [process_multiple_images, hg]

/-- C2 witness: a fatally failing item amid a batch. -/
theorem C2_witness :
    get_bounding_boxes itemB = none ∧
    process_multiple_images (itemB :: [itemC]) = process_multiple_images [itemC] :=
  C2_theorem itemB [itemC] sFatalMsg (Or.inr (by decide))

/-- C3, confirmed.  A provider failing retriably on every attempt makes
exactly `max_attempts` attempts, and the run terminates with the
exhausted-retries failure, which is distinct from any fatal-error
failure. -/
theorem C3_theorem (call : Nat → CallResult) (m : Nat → String)
    (mr init : Nat) (hmr : 1 ≤ mr)
    (hc : ∀ n, call n = CallResult.err (m n))
    (hr : ∀ n, is_retriable_error (m n) = true) :
    (generate_content_with_retry call mr init).attempts = mr ∧
    (generate_content_with_retry call mr init).outcome =
      RetryOutcome.exhausted (m (mr - 1)) ∧
    ∀ msg2, (generate_content_with_retry call mr init).outcome ≠
      RetryOutcome.fatal msg2 := by
  rw [gcwr_all_retriable call m mr init hmr hc hr]
  exact ⟨rfl, rfl, fun msg2 hcon => RetryOutcome.noConfusion hcon⟩

/-- C3 witness: always-retriable provider with a 3-attempt budget. -/
theorem C3_witness :
    (generate_content_with_retry retriableCall 3 2).attempts = 3 ∧
    (generate_content_with_retry retriableCall 3 2).outcome =
      RetryOutcome.exhausted sRetriableMsg :=
  ⟨(C3_theorem retriableCall (fun _ => sRetriableMsg) 3 2 (by omega)
      (fun n => rfl) (fun n => retriable_sRetriableMsg)).1,
   (C3_theorem retriableCall (fun _ => sRetriableMsg) 3 2 (by omega)
      (fun n => rfl) (fun n => retriable_sRetriableMsg)).2.1⟩

/-- C4, confirmed.  A provider that fails retriably on exactly the
first `k < max_attempts` attempts and then succeeds yields the success
outcome after `k + 1` attempts with exactly `k` backoff delays, the
i-th equal to `initial_delay * 2 ^ i` (the multiplier is the constant
2 from line 44). -/
theorem C4_theorem (call : Nat → CallResult) (m : Nat → String)
    (r : ParseResult) (mr init k : Nat) (hk : k < mr)
    (hfail : ∀ i, i < k → call i = CallResult.err (m i) ∧
      is_retriable_error (m i) = true)
    (hok : call k = CallResult.ok r) :
    generate_content_with_retry call mr init =
      ⟨RetryOutcome.success r, k + 1,
       (List.range k).map (fun i => init * 2 ^ i)⟩ :=
  gcwr_k_then_ok call m r mr init k hk hfail hok

/-- C4 witness: two retriable failures then success, delays 2 and 4. -/
theorem C4_witness :
    generate_content_with_retry mixedCall 5 2 =
      ⟨RetryOutcome.success (ParseResult.list [7]), 2 + 1,
       (List.range 2).map (fun i => 2 * 2 ^ i)⟩ :=
  C4_theorem mixedCall (fun _ => sRetriableMsg) (ParseResult.list [7]) 5 2 2
    (by omega)
    (fun i hi => ⟨by simp [mixedCall, hi], retriable_sRetriableMsg⟩)
    (by decide)

/-- C5, confirmed.  A non-retriable error on attempt `j` (after `j`
earlier retriable failures) terminates the run immediately as a fatal
failure: `j + 1` attempts in total and no sleep after the fatal
attempt; with `j = 0` this is failure after exactly 1 attempt and no
delays at all. -/
theorem C5_theorem (call : Nat → CallResult) (m : Nat → String)
    (mr init j : Nat) (hj : j < mr)
    (hfail : ∀ i, i < j → call i = CallResult.err (m i) ∧
      is_retriable_error (m i) = true)
    (hfatal : call j = CallResult.err (m j))
    (hnr : is_retriable_error (m j) = false) :
    generate_content_with_retry call mr init =
      ⟨RetryOutcome.fatal (m j), j + 1,
       (List.range j).map (fun i => init * 2 ^ i)⟩ :=
  gcwr_k_then_fatal call m mr init j hj hfail hfatal hnr

/-- C5 witness: fatal error on the first attempt, one attempt, no
sleeps. -/
theorem C5_witness :
    generate_content_with_retry fatalCall 5 2 =
      ⟨RetryOutcome.fatal sFatalMsg, 0 + 1,
       (List.range 0).map (fun i => 2 * 2 ^ i)⟩ :=
  C5_theorem fatalCall (fun _ => sFatalMsg) 5 2 0 (by omega)
    (fun i hi => absurd hi (by omega)) rfl nonretriable_sFatalMsg

/-- C6, counterexample to the claim as stated: invoked with
`max_attempts = 0`, the retry loop makes zero remote calls but raises
nothing - `for attempt in range(0)` never runs and the function falls
through to `return None` (line 58).  There is no ConfigurationError
anywhere in the code and the run is not aborted. -/
theorem C6_counterexample :
    generate_content_with_retry fatalCall 0 2 =
      ⟨RetryOutcome.returnedNone, 0, []⟩ := rfl

/-- C6, corrected.  For every provider and every initial delay, a
non-positive attempt budget makes no remote call and returns None
normally (no exception of any kind); the caller then fails on the None
response inside its own try block and the batch continues. -/
theorem C6_theorem (call : Nat → CallResult) (init : Nat) :
    generate_content_with_retry call 0 init =
      ⟨RetryOutcome.returnedNone, 0, []⟩ := rfl

/-- C7, counterexample to the claim as stated: with items
`[A, B, C, D]` and a cancellation signal delivered after A's iteration
and before B's, the batch does not return a one-entry partial report -
it returns nothing at all (the signal propagates out of the loop and
the accumulated results are discarded). -/
theorem C7_counterexample :
    (process_multiple_images_cancelled [itemA, itemB, itemC, itemD] 1).2 =
      Except.error () ∧
    (process_multiple_images_cancelled [itemA, itemB, itemC, itemD] 1).2 ≠
      Except.ok [⟨sNameA, some [10]⟩] := by
  refine ⟨rfl, ?_⟩
  intro hco
  rw [show (process_multiple_images_cancelled [itemA, itemB, itemC, itemD] 1).2 =
      Except.error () from rfl] at hco
  exact Except.noConfusion hco

/-- C7, corrected.  A cancellation signal delivered at the top of
iteration `c` means exactly the first `c` items were attempted (no new
item is started), but the partial report accumulated so far is
discarded, not returned: the signal unwinds the loop, which has no
handler, so no `BatchReport` is produced. -/
theorem C7_theorem (items : List ItemSpec) (c : Nat) (h : c < items.length) :
    (process_multiple_images_cancelled items c).1 =
      (items.take c).map ItemSpec.path ∧
    (process_multiple_images_cancelled items c).2 = Except.error () := by
  induction items generalizing c with
  | nil => simp at h
  | cons it rest ih =>
    cases c with
    | zero => exact ⟨rfl, rfl⟩
    | succ cp =>
      have hcp : cp < rest.length := by
        simpa using h
      have ihc := ih cp hcp
      constructor
      · show it.path :: (process_multiple_images_cancelled rest cp).1 = _
        rw [ihc.1]
        rfl
      · show (match (process_multiple_images_cancelled rest cp).2 with
          | Except.error () => (Except.error () : Except Unit (List FileData))
          | Except.ok r =>
            match get_bounding_boxes it with
            | some fd =>
              if fd.detections.isSome = true then Except.ok (fd :: r)
              else Except.ok r
            | none => Except.ok r) = Except.error ()
        rw [ihc.2]

/-- C7 witness: four items, signal after the first iteration - only
item A was attempted and no report is returned. -/
theorem C7_witness :
    (process_multiple_images_cancelled [itemA, itemB, itemC, itemD] 1).1 =
      (([itemA, itemB, itemC, itemD] : List ItemSpec).take 1).map ItemSpec.path ∧
    (process_multiple_images_cancelled [itemA, itemB, itemC, itemD] 1).2 =
      Except.error () :=
  C7_theorem [itemA, itemB, itemC, itemD] 1 (by decide)

/-- C8, counterexample to the claim as stated: for input `[A, B, C]`
where B fails and A, C succeed, the report is
`[Success(A), Success(C)]` - two entries in input order with no
`Failure(B)` entry, not `[Success(A), Failure(B), Success(C)]`. -/
theorem C8_counterexample :
    process_multiple_images [itemA, itemB, itemC] =
      [⟨sNameA, some [10]⟩, ⟨sNameC, some [20, 21]⟩] := by decide

/-- C8, corrected.  The report preserves input order - the batch
distributes over concatenation and equals the input filtered to its
successful items - but failed items are absent from it rather than
present as failure entries. -/
theorem C8_theorem (xs ys : List ItemSpec) :
    process_multiple_images (xs ++ ys) =
      process_multiple_images xs ++ process_multiple_images ys ∧
    process_multiple_images xs = xs.filterMap itemSuccess := by
  refine ⟨?_, pmi_eq_filterMap xs⟩
  rw [pmi_eq_filterMap, pmi_eq_filterMap, pmi_eq_filterMap,
    List.filterMap_append]

/-- C9, counterexample to the claim as stated: with the source defaults
(initial delay 2, 5 attempts) and a provider failing retriably on every
attempt, the total time slept is 2 + 4 + 8 + 16 = 30 seconds, not the
62 seconds the claim says is attained: no sleep happens after the final
attempt. -/
theorem C9_counterexample :
    (generate_content_with_retry retriableCall MAX_RETRIES INITIAL_DELAY).delays.sum = 30 ∧
    (30 : Nat) ≠ 62 :=
  ⟨by decide, by decide⟩

/-- C9, corrected.  The spec's geometric-series formula
`init * (2 ^ max_attempts - 1)` is a valid upper bound on the total
time slept for every provider, but the worst case actually attained
(every attempt failing retriably) is `init * (2 ^ (max_attempts-1) - 1)`:
the loop never sleeps after its final attempt. -/
theorem C9_theorem (call call2 : Nat → CallResult) (m : Nat → String)
    (mr init : Nat) (hmr : 1 ≤ mr)
    (hc : ∀ n, call n = CallResult.err (m n))
    (hr : ∀ n, is_retriable_error (m n) = true) :
    (generate_content_with_retry call2 mr init).delays.sum ≤
      init * (2 ^ mr - 1) ∧
    (generate_content_with_retry call mr init).delays.sum =
      init * (2 ^ (mr - 1) - 1) := by
  refine ⟨gcwr_delays_sum_le call2 mr init, ?_⟩
  rw [gcwr_all_retriable call m mr init hmr hc hr]
  exact delay_geom_sum init (mr - 1)

/-- C9 witness: defaults - the bound instantiates to 62 and the
attained worst-case total to 30. -/
theorem C9_witness :
    (generate_content_with_retry fatalCall 5 2).delays.sum ≤ 2 * (2 ^ 5 - 1) ∧
    (generate_content_with_retry retriableCall 5 2).delays.sum =
      2 * (2 ^ (5 - 1) - 1) :=
  C9_theorem retriableCall fatalCall (fun _ => sRetriableMsg) 5 2 (by omega)
    (fun n => rfl) (fun n => retriable_sRetriableMsg)

/-- C10, confirmed.  The classifier marks an error retriable exactly
when its text contains one of the six marker substrings anywhere (first
conjunct, with occurrence stated by explicit decomposition); a
first-attempt error lacking all six markers is fatal after exactly one
attempt (second conjunct); a first-attempt error containing one -
wherever it occurs, e.g. inside a file path - is retried: at least two
attempts, with the first backoff slept (third conjunct). -/
theorem C10_theorem (msg : String) (call : Nat → CallResult) (mr init : Nat) :
    (is_retriable_error msg = true ↔
      (occursIn sRESOURCE_EXHAUSTED msg ∨ occursIn s429 msg ∨
       occursIn sInternalServerError msg ∨ occursIn s500 msg ∨
       occursIn sServiceUnavailable msg ∨ occursIn s503 msg)) ∧
    (call 0 = CallResult.err msg → is_retriable_error msg = false → 1 ≤ mr →
      generate_content_with_retry call mr init =
        ⟨RetryOutcome.fatal msg, 1, []⟩) ∧
    (call 0 = CallResult.err msg → is_retriable_error msg = true → 2 ≤ mr →
      2 ≤ (generate_content_with_retry call mr init).attempts ∧
      (generate_content_with_retry call mr init).delays.take 1 = [init]) := by
  refine ⟨?_, ?_, ?_⟩
  · unfold is_retriable_error
    simp only [Bool.or_eq_true, containsSub_iff]
    tauto
  · intro h0 hnr hmr
    have hfat := gcwr_k_then_fatal call (fun _ => msg) mr init 0 (by omega)
      (fun i hi => absurd hi (by omega)) h0 hnr
    simpa using hfat
  · intro h0 hre hmr
    unfold generate_content_with_retry
    obtain ⟨f, hf⟩ : ∃ f, mr = f + 1 := ⟨mr - 1, by omega⟩
    subst hf
    rw [gcwrAux_step_retry call (f + 1) init 0 f msg h0 hre (by omega)]
    constructor
    · have hpos := gcwrAux_attempts_pos call (f + 1) init f 1 (by omega)
      show 2 ≤ (gcwrAux call (f + 1) init 1 f).attempts + 1
      omega
    · simp

/-- C10 witness: an error mentioning 429 only inside a file path is
retried anyway. -/
theorem C10_witness :
    2 ≤ (generate_content_with_retry pathCall 5 2).attempts ∧
    (generate_content_with_retry pathCall 5 2).delays.take 1 = [2] :=
  (C10_theorem sPathMsg pathCall 5 2).2.2 rfl (by decide) (by omega)
